import Mathlib

/-!
Verification of the lottery reward-disbursement core
(`src/lib/lottery.ts`-style module and `src/lib/new-api.ts`).

Shallow embedding conventions:
* The Redis key-value store is modelled as explicit state (`LotteryState`):
  the per-(user, day) daily claim tokens, the per-day budget accumulator in
  cents (an `Int`, since `DECRBY` rollbacks can drive it negative), the three
  record indices, the total counter, and the pending-disbursement list.
* JavaScript numbers are modelled as `ℚ` (all values arising here are finite;
  `Number(undefined) = NaN` is modelled through `Option`).
* TTLs and wall-clock expiry are not modelled (time passage is outside the
  per-call semantics); `Date.now()` and `Math.random()` results are passed in
  as parameters, and the external HTTP world is an oracle parameter.
* Redis Lua scripts (the conditional increment-with-rollback of
  `reserveDailyDirectQuota` and the compare-and-delete lock release) are
  embedded as single atomic state transitions, which is exactly what their
  server-side execution guarantees.
-/

/-- `LotteryTier` from the source (`interface LotteryTier`). -/
structure LotteryTier where
  id : String
  name : String
  value : ℚ
  probability : ℚ
  color : String
deriving DecidableEq, Repr

/-- `LotteryRecord` from the source. `creditedQuota` is an optional field. -/
structure LotteryRecord where
  id : String
  linuxdoId : String
  username : String
  tierId : String
  tierName : String
  tierValue : ℚ
  directCredit : Bool
  creditedQuota : Option ℚ
  createdAt : ℚ
deriving DecidableEq, Repr

/-- `StoredLotteryRecord` : `Partial<LotteryRecord> & {oderId?}` — every field
may be absent (or of the wrong JSON type, which the source treats the same as
absent via its `typeof` checks). -/
structure StoredLotteryRecord where
  id : Option String
  linuxdoId : Option String
  oderId : Option String
  username : Option String
  tierId : Option String
  tierName : Option String
  tierValue : Option ℚ
  directCredit : Option Bool
  creditedQuota : Option ℚ
  createdAt : Option ℚ
deriving DecidableEq, Repr

/-- `LotteryConfig` from the source. -/
structure LotteryConfig where
  enabled : Bool
  dailyDirectLimit : ℚ
  tiers : List LotteryTier
deriving DecidableEq, Repr

/-- `PendingLotteryRecord` from the source. -/
structure PendingLotteryRecord where
  record : LotteryRecord
  newApiUserId : Int
  expectedQuota : ℚ
  reservationDay : String
  storedAt : ℚ
deriving DecidableEq, Repr

/-- `DEFAULT_TIERS` from the source. -/
def DEFAULT_TIERS : List LotteryTier :=
  [ { id := "tier_1", name := "1刀福利", value := 1, probability := 40, color := "#22c55e" },
    { id := "tier_3", name := "3刀福利", value := 3, probability := 30, color := "#3b82f6" },
    { id := "tier_5", name := "5刀福利", value := 5, probability := 18, color := "#f59e0b" },
    { id := "tier_10", name := "10刀福利", value := 10, probability := 8, color := "#ec4899" },
    { id := "tier_15", name := "15刀福利", value := 15, probability := 3, color := "#8b5cf6" },
    { id := "tier_20", name := "20刀福利", value := 20, probability := 1, color := "#ef4444" } ]

def DIRECT_AMOUNT_SCALE : ℚ := 100

def RECORDS_RECENT_MAX_LENGTH : Nat := 5000

def USER_RECORDS_MAX_LENGTH : Nat := 200

/-- `PENDING_RECORDS_MAX_AGE_MS = 24 * 60 * 60 * 1000` (24 hours). -/
def PENDING_RECORDS_MAX_AGE_MS : ℚ := 24 * 60 * 60 * 1000

/-- The whole key-value state touched by the lottery module. Claim tokens are
keyed by the interpolated strings `(String(linuxdoId), day)`; the budget
accumulator is the cents integer stored at `lottery:daily_direct:<day>`;
the three record indices and the pending list hold parsed JSON values. -/
@[ext]
structure LotteryState where
  config : LotteryConfig
  claims : String → String → Bool
  budget : String → Int
  recentRecords : List StoredLotteryRecord
  dayRecords : String → List StoredLotteryRecord
  userRecords : String → List StoredLotteryRecord
  totalRecords : Int
  pendings : List PendingLotteryRecord

/-- JavaScript `Math.round` (round half toward +∞): `⌊q + 1/2⌋`. -/
def jsRound (q : ℚ) : Int := Int.floor (q + 1 / 2)

/-- Redis `LRANGE` on a parsed list: negative indices count from the end,
the range is clamped and inclusive. -/
def lrange {α : Type} (l : List α) (start stop : Int) : List α :=
  let n : Int := l.length
  let s0 := if start < 0 then start + n else start
  let e0 := if stop < 0 then stop + n else stop
  let s1 := if s0 < 0 then 0 else s0
  let e1 := if n - 1 < e0 then n - 1 else e0
  if e1 < s1 then [] else (l.drop s1.toNat).take (e1 - s1 + 1).toNat

/-- `getLotteryConfig`: reads the stored config (sanitized on read). The
model keeps the already-sanitized stored config in `s.config`; the kv-error
fallback to defaults is elided (all claims hold for arbitrary configs). -/
def getLotteryConfig (s : LotteryState) : LotteryConfig := s.config

/-- `getTodayDirectTotal`: `(totalCents || 0) / DIRECT_AMOUNT_SCALE` read
from today's budget key. -/
def getTodayDirectTotal (s : LotteryState) (today : String) : ℚ :=
  ((s.budget today : ℚ)) / DIRECT_AMOUNT_SCALE

/-- `reserveDailyDirectQuota(dollars, today?)`. The Lua script is one atomic
transition: `INCRBY` the day key by `cents`; if the new total exceeds the
limit, `DECRBY` it back (net: accumulator unchanged) and report
`{0, newTotal - cents}`; otherwise report `{1, newTotal}`. The `cents <= 0`
guard returns `getTodayDirectTotal()` (which reads the *actual today* key,
`todayG`) without running the script. `EXPIRE` is elided (time not modelled). -/
def reserveDailyDirectQuota (s : LotteryState) (todayG : String) (dollars : ℚ)
    (day : String) : (Bool × ℚ) × LotteryState :=
  let config := getLotteryConfig s
  let cents := jsRound (dollars * DIRECT_AMOUNT_SCALE)
  let limitCents := jsRound (config.dailyDirectLimit * DIRECT_AMOUNT_SCALE)
  if cents ≤ 0 then
    ((false, getTodayDirectTotal s todayG), s)
  else
    let newTotal := s.budget day + cents
    if limitCents < newTotal then
      ((false, ((newTotal - cents : Int) : ℚ) / DIRECT_AMOUNT_SCALE), s)
    else
      ((true, ((newTotal : Int) : ℚ) / DIRECT_AMOUNT_SCALE),
        { s with budget := fun d => if d = day then newTotal else s.budget d })

/-- `rollbackDailyDirectQuota(dollars, today?)`: unconditional `DECRBY`
(skipped for non-positive cents). -/
def rollbackDailyDirectQuota (s : LotteryState) (dollars : ℚ) (day : String) :
    LotteryState :=
  let cents := jsRound (dollars * DIRECT_AMOUNT_SCALE)
  if cents ≤ 0 then s
  else { s with budget := fun d => if d = day then s.budget d - cents else s.budget d }

/-- C1: `reserveDailyDirectQuota` atomically increments the day's accumulator
and checks the cap in one store-side operation. When the incremented total
exceeds the cap it decrements by the same amount, reports not-granted and
returns the total as it was before the attempted reservation, leaving the
accumulator (for every day) unchanged; when it reports granted, the
accumulator after the call equals the old total plus the amount and is at
most the configured daily cap (in cents, the fixed-point subunit). -/
theorem reserveDailyDirectQuota_cap_invariant (s : LotteryState)
    (todayG day : String) (dollars : ℚ) :
    ((reserveDailyDirectQuota s todayG dollars day).1.1 = true →
      (reserveDailyDirectQuota s todayG dollars day).2.budget day =
          s.budget day + jsRound (dollars * DIRECT_AMOUNT_SCALE) ∧
      (reserveDailyDirectQuota s todayG dollars day).2.budget day ≤
          jsRound ((getLotteryConfig s).dailyDirectLimit * DIRECT_AMOUNT_SCALE) ∧
      (reserveDailyDirectQuota s todayG dollars day).1.2 =
          (((reserveDailyDirectQuota s todayG dollars day).2.budget day : ℚ)) /
            DIRECT_AMOUNT_SCALE) ∧
    ((reserveDailyDirectQuota s todayG dollars day).1.1 = false →
      (∀ d, (reserveDailyDirectQuota s todayG dollars day).2.budget d = s.budget d) ∧
      (0 < jsRound (dollars * DIRECT_AMOUNT_SCALE) →
        (reserveDailyDirectQuota s todayG dollars day).1.2 =
          ((s.budget day : ℚ)) / DIRECT_AMOUNT_SCALE)) := by
  simp only [reserveDailyDirectQuota, getLotteryConfig, getTodayDirectTotal]
  split_ifs with hc hover
  · refine ⟨fun h => by simp at h, fun _ => ⟨fun d => rfl, fun hpos => absurd hc (by omega)⟩⟩
  · refine ⟨fun h => by simp at h, fun _ => ⟨fun d => rfl, fun _ => by push_cast; ring⟩⟩
  · refine ⟨fun _ => ⟨by simp, ?_, by simp⟩, fun h => by simp at h⟩
    simp only [if_pos rfl]
    omega

/-- `tryClaimDailyFree(linuxdoId, today?)`: atomic `SET key NX` of the daily
claim token; reports granted exactly when the key was absent. The first key
component is the interpolated `${linuxdoId}` string. TTL elided. -/
def tryClaimDailyFree (s : LotteryState) (idStr : String) (day : String) :
    Bool × LotteryState :=
  if s.claims idStr day then (false, s)
  else
    (true, { s with claims := fun i d => if i = idStr ∧ d = day then true else s.claims i d })

/-- `releaseDailyFree(linuxdoId, today?)`: unconditional `DEL` of the claim key. -/
def releaseDailyFree (s : LotteryState) (idStr : String) (day : String) : LotteryState :=
  { s with claims := fun i d => if i = idStr ∧ d = day then false else s.claims i d }

/-- JavaScript `String.prototype.trim()`: strip whitespace from both ends
(structural definition over the character list, so that it evaluates). -/
def jsTrim (s : String) : String :=
  ⟨((s.data.dropWhile Char.isWhitespace).reverse.dropWhile Char.isWhitespace).reverse⟩

/-- `fallbackTierId(tierValue)` from the source. -/
def fallbackTierId (tierValue : ℚ) : String :=
  match DEFAULT_TIERS.find? (fun tier => decide (tier.value = tierValue)) with
  | some tier => tier.id
  | none => "tier_" ++ toString (max 1 (Int.floor tierValue))

/-- `normalizeLotteryRecord(rawRecord)`: read-time normalization with the
legacy `oderId` fallback; drops records missing id, user id, tier name, or a
finite tierValue/createdAt (absence models `NaN` after `Number(...)`). -/
def normalizeLotteryRecord (rawRecord : StoredLotteryRecord) : Option LotteryRecord :=
  let id := jsTrim (match rawRecord.id with | some v => v | none => "")
  let linuxdoIdRaw :=
    match rawRecord.linuxdoId with
    | some v => v
    | none => match rawRecord.oderId with | some v => v | none => ""
  let linuxdoId := jsTrim linuxdoIdRaw
  let username := match rawRecord.username with | some v => v | none => ""
  let tierName := match rawRecord.tierName with | some v => v | none => ""
  if id = "" ∨ linuxdoId = "" ∨ tierName = "" then none
  else
    match rawRecord.tierValue, rawRecord.createdAt with
    | some tierValue, some createdAt =>
      some
        { id := id
          linuxdoId := linuxdoId
          username := username
          tierId :=
            match rawRecord.tierId with
            | some t => if jsTrim t ≠ "" then t else fallbackTierId tierValue
            | none => fallbackTierId tierValue
          tierName := tierName
          tierValue := tierValue
          directCredit := match rawRecord.directCredit with | some b => b | none => false
          creditedQuota := rawRecord.creditedQuota
          createdAt := createdAt }
    | _, _ => none

/-- `normalizeLotteryRecords`: keep the successfully normalized records. -/
def normalizeLotteryRecords (records : List StoredLotteryRecord) : List LotteryRecord :=
  records.filterMap normalizeLotteryRecord

/-- Serialization of a `LotteryRecord` as stored in the kv lists (every field
present; `creditedQuota` only when set; no legacy `oderId`). -/
def LotteryRecord.toStored (r : LotteryRecord) : StoredLotteryRecord :=
  { id := some r.id
    linuxdoId := some r.linuxdoId
    oderId := none
    username := some r.username
    tierId := some r.tierId
    tierName := some r.tierName
    tierValue := some r.tierValue
    directCredit := some r.directCredit
    creditedQuota := r.creditedQuota
    createdAt := some r.createdAt }

/-- `appendLotteryRecord(record, linuxdoId)`: `LPUSH` + `LTRIM` on the
global-recent ring, `LPUSH` on today's day archive, `LPUSH` + `LTRIM` on the
per-user ring, and the incremented total counter (modelled as already
initialized; the lazy legacy initialization only seeds its base value). -/
def appendLotteryRecord (s : LotteryState) (record : LotteryRecord)
    (linuxdoId : Int) (today : String) : LotteryState :=
  let stored := record.toStored
  let userKey := toString linuxdoId
  { s with
    recentRecords := (stored :: s.recentRecords).take RECORDS_RECENT_MAX_LENGTH
    dayRecords := fun d => if d = today then stored :: s.dayRecords d else s.dayRecords d
    userRecords := fun k =>
      if k = userKey then (stored :: s.userRecords k).take USER_RECORDS_MAX_LENGTH
      else s.userRecords k
    totalRecords := s.totalRecords + 1 }

/-- `getUserLotteryRecords(linuxdoId, limit)`: `LRANGE 0 (limit-1)` on the
per-user ring, normalized on read. -/
def getUserLotteryRecords (s : LotteryState) (linuxdoId : Int) (limit : Int) :
    List LotteryRecord :=
  normalizeLotteryRecords (lrange (s.userRecords (toString linuxdoId)) 0 (limit - 1))

/-- `storePendingRecord`: `LPUSH` + `LTRIM 0 99` on the pending list. -/
def storePendingRecord (s : LotteryState) (pending : PendingLotteryRecord) : LotteryState :=
  { s with pendings := (pending :: s.pendings).take 100 }

/-- The subtraction loop of `weightedRandomSelect`: subtract each tier's
probability from the drawn value, returning the tier at which the running
remainder becomes non-positive. -/
def selectLoop : List LotteryTier → ℚ → Option LotteryTier
  | [], _ => none
  | tier :: rest, rand =>
    if rand - tier.probability ≤ 0 then some tier else selectLoop rest (rand - tier.probability)

/-- `weightedRandomSelect(tiers)`: `random` is `Math.random() * totalWeight`
with the drawn `Math.random()` value passed in as `r`; the last tier is the
fallback for residue (an empty list falls back to `none`, the model of the
out-of-range indexing producing `undefined`). -/
def weightedRandomSelect (tiers : List LotteryTier) (r : ℚ) : Option LotteryTier :=
  let totalWeight := tiers.foldl (fun sum tier => sum + tier.probability) 0
  if totalWeight ≤ 0 then none
  else
    match selectLoop tiers (r * totalWeight) with
    | some tier => some tier
    | none => tiers.getLast?

/-- The affordable-tier filter inside `spinLotteryDirect`:
`config.tiers.filter((tier) => tier.probability > 0 && tier.value <= remainingQuota)`. -/
def affordableTiersOf (s : LotteryState) (today : String) : List LotteryTier :=
  let config := getLotteryConfig s
  let remainingQuota := config.dailyDirectLimit - getTodayDirectTotal s today
  config.tiers.filter (fun tier => decide (0 < tier.probability ∧ tier.value ≤ remainingQuota))

/-- Result type of `creditQuotaToUser` (`uncertain` is an optional field in
the source; its absence is `false`). -/
structure CreditResult where
  success : Bool
  message : String
  newQuota : Option ℚ
  uncertain : Bool
deriving DecidableEq, Repr

/-- Result shape of `spinLotteryDirect`. -/
structure SpinResult where
  success : Bool
  record : Option LotteryRecord
  message : String
  uncertain : Bool
deriving DecidableEq, Repr

def msgNoAttempts : String := "今日免费次数已用完，明天再来吧"

def msgDisabled : String := "抽奖活动暂未开放"

def msgCapReached : String := "今日发放额度已达上限，请明日再试"

def msgConfigError : String := "抽奖配置异常，请联系管理员"

def msgCommitFailed : String := "充值失败，请稍后重试"

def msgUncertain : String := "充值结果不确定，请稍后检查余额"

/-- `spinLotteryDirect(linuxdoId, username, newApiUserId)`, the saga.
`today` is the day string locked at entry (`getTodayDateString()`), `r` is
the `Math.random()` draw of the selection, `credit` is the outcome of the
external `creditQuotaToUser` call, `idSuffix` stands for the generated
`${Date.now()}_${random}` id suffix and `now` for `Date.now()`. The
exception branches (kv failures) are not modelled: every modelled kv
operation is total. -/
def spinLotteryDirect (s : LotteryState) (linuxdoId : Int) (username : String)
    (newApiUserId : Int) (today : String) (r : ℚ) (credit : CreditResult)
    (idSuffix : String) (now : ℚ) : SpinResult × LotteryState :=
  let idStr := toString linuxdoId
  let claimOut := tryClaimDailyFree s idStr today
  if claimOut.1 = false then (⟨false, none, msgNoAttempts, false⟩, claimOut.2)
  else
    let s1 := claimOut.2
    let config := getLotteryConfig s1
    if config.enabled = false then
      (⟨false, none, msgDisabled, false⟩, releaseDailyFree s1 idStr today)
    else
      let affordableTiers := affordableTiersOf s1 today
      if affordableTiers.isEmpty then
        (⟨false, none, msgCapReached, false⟩, releaseDailyFree s1 idStr today)
      else
        match weightedRandomSelect affordableTiers r with
        | none => (⟨false, none, msgConfigError, false⟩, releaseDailyFree s1 idStr today)
        | some selectedTier =>
          let reserveOut := reserveDailyDirectQuota s1 today selectedTier.value today
          let s2 := reserveOut.2
          if reserveOut.1.1 = false then
            (⟨false, none, msgCapReached, false⟩, releaseDailyFree s2 idStr today)
          else
            if credit.uncertain then
              let pendingRecord : LotteryRecord :=
                { id := "lottery_pending_" ++ idSuffix
                  linuxdoId := idStr
                  username := username
                  tierId := selectedTier.id
                  tierName := "[待确认] " ++ selectedTier.name
                  tierValue := selectedTier.value
                  directCredit := true
                  creditedQuota := none
                  createdAt := now }
              let s3 := appendLotteryRecord s2 pendingRecord linuxdoId today
              let s4 := storePendingRecord s3
                { record := pendingRecord
                  newApiUserId := newApiUserId
                  expectedQuota := credit.newQuota.getD 0
                  reservationDay := today
                  storedAt := now }
              (⟨false, none, msgUncertain, true⟩, s4)
            else if credit.success = false then
              let s3 := rollbackDailyDirectQuota s2 selectedTier.value today
              (⟨false, none, msgCommitFailed, false⟩, releaseDailyFree s3 idStr today)
            else
              let record : LotteryRecord :=
                { id := "lottery_" ++ idSuffix
                  linuxdoId := idStr
                  username := username
                  tierId := selectedTier.id
                  tierName := selectedTier.name
                  tierValue := selectedTier.value
                  directCredit := true
                  creditedQuota := credit.newQuota
                  createdAt := now }
              (⟨true, some record,
                  "恭喜获得 " ++ selectedTier.name ++ "！已直接充值到您的账户", false⟩,
                appendLotteryRecord s2 record linuxdoId today)

/-- `selectLoop` only ever returns an element of its input list. -/
lemma selectLoop_mem : ∀ (l : List LotteryTier) (rand : ℚ) (tier : LotteryTier),
    selectLoop l rand = some tier → tier ∈ l
  | [], _, _, h => by simp [selectLoop] at h
  | t :: rest, rand, tier, h => by
    by_cases hle : rand - t.probability ≤ 0
    · simp [selectLoop, hle] at h
      simp [h]
    · simp [selectLoop, hle] at h
      exact List.mem_cons_of_mem _ (selectLoop_mem rest _ _ h)

/-- The probability-sum `reduce` is positive on a non-empty list of positive
weights (for any non-negative accumulator). -/
lemma foldl_probability_pos :
    ∀ (l : List LotteryTier) (acc : ℚ), 0 ≤ acc → l ≠ [] →
      (∀ t ∈ l, 0 < t.probability) →
      0 < l.foldl (fun sum tier => sum + tier.probability) acc
  | [], _, _, hne, _ => absurd rfl hne
  | t :: rest, acc, hacc, _, hpos => by
    have ht : 0 < t.probability := hpos t (List.mem_cons_self t rest)
    match rest with
    | [] => simpa using by linarith
    | x :: rest2 =>
      exact foldl_probability_pos (x :: rest2) (acc + t.probability) (by linarith)
        (List.cons_ne_nil _ _) (fun u hu => hpos u (List.mem_cons_of_mem _ hu))

/-- On a non-empty list, `weightedRandomSelect` with positive total weight
returns some member (loop hit or last-element fallback). -/
lemma weightedRandomSelect_mem_of_pos (tiers : List LotteryTier) (r : ℚ)
    (hne : tiers ≠ []) (hpos : ∀ t ∈ tiers, 0 < t.probability) :
    ∃ t ∈ tiers, weightedRandomSelect tiers r = some t := by
  have htot : 0 < tiers.foldl (fun sum tier => sum + tier.probability) 0 :=
    foldl_probability_pos tiers 0 le_rfl hne hpos
  simp only [weightedRandomSelect, if_neg (not_le.2 htot)]
  cases hsel : selectLoop tiers (r * tiers.foldl (fun sum tier => sum + tier.probability) 0) with
  | some t => exact ⟨t, selectLoop_mem _ _ _ hsel, rfl⟩
  | none =>
    refine ⟨tiers.getLast hne, List.getLast_mem hne, ?_⟩
    rw [List.getLast?_eq_getLast_of_ne_nil hne]

/-- C10: for every non-empty list of tiers with positive weights — the shape
produced by the affordable-tier filter — `weightedRandomSelect` returns some
element of the list and never `null`; consequently, after a non-empty
affordable filter in `spinLotteryDirect`, the selection is never `none`, so
the configuration-error branch is unreachable. -/
theorem weightedRandomSelect_never_none :
    (∀ (tiers : List LotteryTier) (r : ℚ), tiers ≠ [] →
      (∀ t ∈ tiers, 0 < t.probability) →
      ∃ t ∈ tiers, weightedRandomSelect tiers r = some t) ∧
    (∀ (s : LotteryState) (today : String) (r : ℚ), affordableTiersOf s today ≠ [] →
      ∃ t ∈ affordableTiersOf s today,
        weightedRandomSelect (affordableTiersOf s today) r = some t) := by
  refine ⟨weightedRandomSelect_mem_of_pos, fun s today r hne => ?_⟩
  refine weightedRandomSelect_mem_of_pos _ r hne (fun t ht => ?_)
  have := List.of_mem_filter ht
  simp only [decide_eq_true_eq] at this
  exact this.1

/-- Witness for C10 at the default tier configuration. -/
theorem weightedRandomSelect_never_none_witness :
    ∃ t ∈ DEFAULT_TIERS, weightedRandomSelect DEFAULT_TIERS (1 / 2) = some t :=
  weightedRandomSelect_never_none.1 DEFAULT_TIERS (1 / 2) (by decide) (by decide)

/-- A kv state with nothing stored yet and the default configuration. -/
def emptyLotteryState : LotteryState where
  config := { enabled := true, dailyDirectLimit := 2000, tiers := DEFAULT_TIERS }
  claims := fun _ _ => false
  budget := fun _ => 0
  recentRecords := []
  dayRecords := fun _ => []
  userRecords := fun _ => []
  totalRecords := 0
  pendings := []

/-- A state in which user 7 already holds the claim token for 2026-01-01. -/
def claimedLotteryState : LotteryState :=
  { emptyLotteryState with claims := fun i d => decide (i = "7" ∧ d = "2026-01-01") }

def sampleSuccessCredit : CreditResult :=
  { success := true, message := "ok", newQuota := some 500000, uncertain := false }

def sampleUncertainCredit : CreditResult :=
  { success := false, message := "timeout", newQuota := some 500000, uncertain := true }

/-- C4: a user who already holds today's daily claim token (the set-if-absent
claim reports not-granted) receives the no-attempts-left denial and the whole
state — in particular the daily budget accumulator — is unchanged. -/
theorem spin_denied_when_already_claimed (s : LotteryState) (linuxdoId : Int)
    (username : String) (newApiUserId : Int) (today : String) (r : ℚ)
    (credit : CreditResult) (idSuffix : String) (now : ℚ)
    (h : s.claims (toString linuxdoId) today = true) :
    spinLotteryDirect s linuxdoId username newApiUserId today r credit idSuffix now =
      (⟨false, none, msgNoAttempts, false⟩, s) := by
  simp [spinLotteryDirect, tryClaimDailyFree, h]

/-- Witness for C4: user 7 with an existing token is denied with no mutation. -/
theorem spin_denied_when_already_claimed_witness :
    claimedLotteryState.claims (toString (7 : Int)) "2026-01-01" = true ∧
    spinLotteryDirect claimedLotteryState 7 "alice" 42 "2026-01-01" 0
        sampleSuccessCredit "x" 0 =
      (⟨false, none, msgNoAttempts, false⟩, claimedLotteryState) :=
  ⟨by decide, spin_denied_when_already_claimed claimedLotteryState 7 "alice" 42
    "2026-01-01" 0 sampleSuccessCredit "x" 0 (by decide)⟩

/-- Setting claim tokens does not change the affordable-tier computation
(it reads only the config and the budget accumulator). -/
lemma affordableTiersOf_update_claims (s : LotteryState)
    (c : String → String → Bool) (today : String) :
    affordableTiersOf { s with claims := c } today = affordableTiersOf s today := rfl

/-- C5: whenever the budget reservation reports not-granted inside
`spinLotteryDirect`, the attempt releases the user's daily claim token for
the same locked day and returns the budget-exhausted denial; no reward
record is written (the final state equals the initial one: records, counter,
pendings, budget and claims are all unchanged). -/
theorem spin_reserve_denied_releases_claim (s : LotteryState) (linuxdoId : Int)
    (username : String) (newApiUserId : Int) (today : String) (r : ℚ)
    (credit : CreditResult) (idSuffix : String) (now : ℚ) (tier : LotteryTier)
    (hclaim : s.claims (toString linuxdoId) today = false)
    (hen : (getLotteryConfig s).enabled = true)
    (hsel : weightedRandomSelect (affordableTiersOf s today) r = some tier)
    (hfail : jsRound (tier.value * DIRECT_AMOUNT_SCALE) ≤ 0 ∨
      jsRound ((getLotteryConfig s).dailyDirectLimit * DIRECT_AMOUNT_SCALE) <
        s.budget today + jsRound (tier.value * DIRECT_AMOUNT_SCALE)) :
    spinLotteryDirect s linuxdoId username newApiUserId today r credit idSuffix now =
      (⟨false, none, msgCapReached, false⟩, s) := by
  have hne : (affordableTiersOf s today).isEmpty = false := by
    cases h : affordableTiersOf s today with
    | nil => rw [h] at hsel; simp [weightedRandomSelect] at hsel
    | cons a l => rfl
  have h1 : (reserveDailyDirectQuota
      { s with claims := fun i d =>
          if i = toString linuxdoId ∧ d = today then true else s.claims i d }
      today tier.value today).1.1 = false := by
    simp only [reserveDailyDirectQuota, getLotteryConfig]
    split_ifs with hc hover
    · rfl
    · rfl
    · exfalso
      rcases hfail with hf | hf
      · exact hc hf
      · exact hover hf
  have h2 : (reserveDailyDirectQuota
      { s with claims := fun i d =>
          if i = toString linuxdoId ∧ d = today then true else s.claims i d }
      today tier.value today).2 =
      { s with claims := fun i d =>
          if i = toString linuxdoId ∧ d = today then true else s.claims i d } := by
    simp only [reserveDailyDirectQuota, getLotteryConfig]
    split_ifs with hc hover
    · rfl
    · rfl
    · exfalso
      rcases hfail with hf | hf
      · exact hc hf
      · exact hover hf
  simp only [getLotteryConfig] at hen
  simp only [spinLotteryDirect, tryClaimDailyFree, hclaim, Bool.false_eq_true, if_false,
    getLotteryConfig, affordableTiersOf_update_claims, hen, hne, Bool.true_eq_false,
    hsel, h1, h2, if_true, releaseDailyFree]
  refine Prod.ext rfl ?_
  ext i d <;> try rfl
  by_cases hm : i = toString linuxdoId ∧ d = today
  · simp only [hm, if_true]
    obtain ⟨hi, hd⟩ := hm
    subst hi; subst hd
    exact hclaim.symm
  · simp [hm]

/-- A tier whose sub-cent value rounds to zero cents: the affordable filter
accepts it while the atomic reserve denies it. -/
def fractionalTier : LotteryTier :=
  { id := "tier_f", name := "f", value := 1 / 250, probability := 1, color := "#fff" }

def fractionalTierState : LotteryState :=
  { emptyLotteryState with
    config := { enabled := true, dailyDirectLimit := 2000, tiers := [fractionalTier] } }

/-- Witness for C5 at a concrete state where the reservation is denied. -/
theorem spin_reserve_denied_releases_claim_witness :
    fractionalTierState.claims (toString (7 : Int)) "2026-01-01" = false ∧
    (getLotteryConfig fractionalTierState).enabled = true ∧
    weightedRandomSelect (affordableTiersOf fractionalTierState "2026-01-01") 0 =
      some fractionalTier ∧
    jsRound (fractionalTier.value * DIRECT_AMOUNT_SCALE) ≤ 0 ∧
    spinLotteryDirect fractionalTierState 7 "alice" 42 "2026-01-01" 0
        sampleSuccessCredit "x" 0 =
      (⟨false, none, msgCapReached, false⟩, fractionalTierState) :=
  have hsel : weightedRandomSelect (affordableTiersOf fractionalTierState "2026-01-01") 0 =
      some fractionalTier := by
    norm_num [weightedRandomSelect, affordableTiersOf, getLotteryConfig, getTodayDirectTotal,
      selectLoop, fractionalTierState, fractionalTier, emptyLotteryState, DIRECT_AMOUNT_SCALE,
      List.filter]
  have hcents : jsRound (fractionalTier.value * DIRECT_AMOUNT_SCALE) ≤ 0 := by
    norm_num [jsRound, fractionalTier, DIRECT_AMOUNT_SCALE]
  ⟨rfl, rfl, hsel, hcents,
    spin_reserve_denied_releases_claim fractionalTierState 7 "alice" 42 "2026-01-01" 0
      sampleSuccessCredit "x" 0 fractionalTier rfl rfl hsel (Or.inl hcents)⟩

/-- Outcome of one `checkUserQuota` call as seen by the reconciler: the call
threw, reported `success:false`, or observed a quota value. -/
inductive QuotaQueryOutcome where
  | thrown : QuotaQueryOutcome
  | notSuccess : QuotaQueryOutcome
  | observed : ℚ → QuotaQueryOutcome
deriving DecidableEq, Repr

/-- Models `String(Number(str))` for the decimal-integer strings produced by
the writer (`String(linuxdoId)`); a non-numeric string becomes the "NaN" key. -/
def jsNumberKey (str : String) : String :=
  match str.toInt? with
  | some n => toString n
  | none => "NaN"

/-- The compensation applied to a pending entry confirmed as not landed:
roll back the budget reservation for the stored reservation day and release
the daily claim for that day (straight from the `failed` branch of
`reconcilePendingRecords`). -/
def compensatePendingFailure (st : LotteryState) (pending : PendingLotteryRecord) :
    LotteryState :=
  releaseDailyFree
    (rollbackDailyDirectQuota st pending.record.tierValue pending.reservationDay)
    (jsNumberKey pending.record.linuxdoId) pending.reservationDay

/-- Accumulated result of the reconcile loop. -/
structure ReconcileAcc where
  confirmed : Nat
  failed : Nat
  expired : Nat
  remaining : List PendingLotteryRecord
  state : LotteryState

/-- The `for (const pending of allPending)` loop of `reconcilePendingRecords`.
`oracle i` is the outcome of the `checkUserQuota` call for the i-th entry
(a thrown call and a `success:false` reply both keep the entry pending).
Entries are well-typed in the model, so the malformed-entry guard of the
source (missing `record` or non-numeric `newApiUserId`) never fires. -/
def reconcileLoop (now : ℚ) (oracle : Nat → QuotaQueryOutcome) :
    Nat → List PendingLotteryRecord → LotteryState → ReconcileAcc
  | _, [], st => ⟨0, 0, 0, [], st⟩
  | i, pending :: rest, st =>
    if now - pending.storedAt > PENDING_RECORDS_MAX_AGE_MS then
      let acc := reconcileLoop now oracle (i + 1) rest st
      { acc with expired := acc.expired + 1 }
    else
      match oracle i with
      | QuotaQueryOutcome.thrown =>
        let acc := reconcileLoop now oracle (i + 1) rest st
        { acc with remaining := pending :: acc.remaining }
      | QuotaQueryOutcome.notSuccess =>
        let acc := reconcileLoop now oracle (i + 1) rest st
        { acc with remaining := pending :: acc.remaining }
      | QuotaQueryOutcome.observed quota =>
        if quota ≥ pending.expectedQuota then
          let acc := reconcileLoop now oracle (i + 1) rest st
          { acc with confirmed := acc.confirmed + 1 }
        else
          let acc := reconcileLoop now oracle (i + 1) rest
            (compensatePendingFailure st pending)
          { acc with failed := acc.failed + 1 }

/-- Return shape of `reconcilePendingRecords`. -/
structure ReconcileSummary where
  processed : Nat
  confirmed : Nat
  failed : Nat
  expired : Nat
  stillPending : Nat
deriving DecidableEq, Repr

/-- `reconcilePendingRecords()`: read the whole pending list, classify every
entry, and replace the list with the unresolved entries (the `DEL` +
item-by-item `LPUSH` write-back reverses their order). -/
def reconcilePendingRecords (s : LotteryState) (now : ℚ)
    (oracle : Nat → QuotaQueryOutcome) : ReconcileSummary × LotteryState :=
  let allPending := lrange s.pendings 0 (-1)
  if allPending.isEmpty then
    (⟨0, 0, 0, 0, 0⟩, s)
  else
    let acc := reconcileLoop now oracle 0 allPending s
    (⟨allPending.length, acc.confirmed, acc.failed, acc.expired, acc.remaining.length⟩,
      { acc.state with pendings := acc.remaining.reverse })

/-- The per-entry classification stated by the specification: over-age ⇒
expired; query failure ⇒ kept pending; observed quota at or above the stored
floor ⇒ confirmed; below the floor ⇒ failed (compensated). -/
inductive PendingVerdict where
  | expiredDrop : PendingVerdict
  | kept : PendingVerdict
  | confirmedDrop : PendingVerdict
  | failedDrop : PendingVerdict
deriving DecidableEq, Repr

/-- Specification-side classification of the i-th pending entry. -/
def classifyPending (now : ℚ) (oracle : Nat → QuotaQueryOutcome) (i : Nat)
    (pending : PendingLotteryRecord) : PendingVerdict :=
  if now - pending.storedAt > PENDING_RECORDS_MAX_AGE_MS then PendingVerdict.expiredDrop
  else
    match oracle i with
    | QuotaQueryOutcome.thrown => PendingVerdict.kept
    | QuotaQueryOutcome.notSuccess => PendingVerdict.kept
    | QuotaQueryOutcome.observed quota =>
      if quota ≥ pending.expectedQuota then PendingVerdict.confirmedDrop
      else PendingVerdict.failedDrop

/-- The entries classified with a given verdict, in encounter order. -/
def verdictEntries (now : ℚ) (oracle : Nat → QuotaQueryOutcome) (v : PendingVerdict) :
    Nat → List PendingLotteryRecord → List PendingLotteryRecord
  | _, [] => []
  | i, pending :: rest =>
    if classifyPending now oracle i pending = v then
      pending :: verdictEntries now oracle v (i + 1) rest
    else
      verdictEntries now oracle v (i + 1) rest

/-- The reconcile loop is exactly the per-entry classification: kept entries
are collected in order, each verdict is counted, and the state is the fold of
the failed-entry compensation over the failed entries in order. -/
lemma reconcileLoop_eq_spec (now : ℚ) (oracle : Nat → QuotaQueryOutcome) :
    ∀ (l : List PendingLotteryRecord) (i : Nat) (st : LotteryState),
    reconcileLoop now oracle i l st =
      { confirmed := (verdictEntries now oracle PendingVerdict.confirmedDrop i l).length,
        failed := (verdictEntries now oracle PendingVerdict.failedDrop i l).length,
        expired := (verdictEntries now oracle PendingVerdict.expiredDrop i l).length,
        remaining := verdictEntries now oracle PendingVerdict.kept i l,
        state := (verdictEntries now oracle PendingVerdict.failedDrop i l).foldl
          compensatePendingFailure st }
  | [], i, st => rfl
  | pending :: rest, i, st => by
    by_cases hage : now - pending.storedAt > PENDING_RECORDS_MAX_AGE_MS
    · simp only [reconcileLoop, verdictEntries, classifyPending, hage, if_true,
        reconcileLoop_eq_spec now oracle rest (i + 1) st]
      simp
    · cases horacle : oracle i with
      | thrown =>
        simp only [reconcileLoop, verdictEntries, classifyPending, hage, horacle, if_false,
          reconcileLoop_eq_spec now oracle rest (i + 1) st]
        simp
      | notSuccess =>
        simp only [reconcileLoop, verdictEntries, classifyPending, hage, horacle, if_false,
          reconcileLoop_eq_spec now oracle rest (i + 1) st]
        simp
      | observed quota =>
        by_cases hq : quota ≥ pending.expectedQuota
        · simp only [reconcileLoop, verdictEntries, classifyPending, hage, horacle, hq,
            if_true, if_false, reconcileLoop_eq_spec now oracle rest (i + 1) st]
          simp
        · simp only [reconcileLoop, verdictEntries, classifyPending, hage, horacle, hq,
            if_true, if_false,
            reconcileLoop_eq_spec now oracle rest (i + 1) (compensatePendingFailure st pending)]
          simp [List.foldl_cons]

/-- `LRANGE key 0 -1` reads the whole list. -/
lemma lrange_all {α : Type} (l : List α) : lrange l 0 (-1) = l := by
  rcases l with _ | ⟨x, xs⟩
  · rfl
  · simp only [lrange, List.length_cons]
    split_ifs with h1 h2 h3 h4 h5 <;> try omega
    all_goals
      rw [show (0 : Int).toNat = 0 from rfl, List.drop_zero]
      apply List.take_of_length_le
      simp only [List.length_cons]
      omega

/-- C3: one run of `reconcilePendingRecords` classifies every pending entry
exactly as specified — over the 24-hour maximum age ⇒ expired and dropped
with no compensation; a failed or throwing quota query ⇒ kept pending for a
later run; observed quota at or above the stored floor ⇒ confirmed and
dropped; observed quota below the floor ⇒ failed, the budget reservation for
the stored reservation day rolled back and the daily claim for that day
released, and the entry dropped. The summary counts each verdict and the
final state is the compensation fold over the failed entries, with the kept
entries written back (in reversed order, as `DEL` + per-item `LPUSH` does). -/
theorem reconcile_classifies_every_entry (s : LotteryState) (now : ℚ)
    (oracle : Nat → QuotaQueryOutcome) :
    reconcilePendingRecords s now oracle =
      ({ processed := s.pendings.length,
         confirmed := (verdictEntries now oracle PendingVerdict.confirmedDrop 0 s.pendings).length,
         failed := (verdictEntries now oracle PendingVerdict.failedDrop 0 s.pendings).length,
         expired := (verdictEntries now oracle PendingVerdict.expiredDrop 0 s.pendings).length,
         stillPending := (verdictEntries now oracle PendingVerdict.kept 0 s.pendings).length },
       { (verdictEntries now oracle PendingVerdict.failedDrop 0 s.pendings).foldl
            compensatePendingFailure s with
          pendings := (verdictEntries now oracle PendingVerdict.kept 0 s.pendings).reverse }) := by
  simp only [reconcilePendingRecords, lrange_all]
  rcases hl : s.pendings with _ | ⟨p, rest⟩
  · simp only [List.isEmpty_nil, if_true, verdictEntries, List.length_nil, List.foldl_nil,
      List.reverse_nil]
    rw [← hl]
  · simp only [List.isEmpty_cons, Bool.false_eq_true, if_false, reconcileLoop_eq_spec]

/-- Compensating a failed pending entry touches only the budget accumulator
and the claim tokens, never a record index or the counter. -/
lemma compensatePendingFailure_preserves_records (st : LotteryState)
    (pending : PendingLotteryRecord) :
    (compensatePendingFailure st pending).userRecords = st.userRecords ∧
    (compensatePendingFailure st pending).recentRecords = st.recentRecords ∧
    (compensatePendingFailure st pending).dayRecords = st.dayRecords ∧
    (compensatePendingFailure st pending).totalRecords = st.totalRecords := by
  simp only [compensatePendingFailure, releaseDailyFree, rollbackDailyDirectQuota]
  split_ifs <;> simp

/-- Folding the failed-entry compensation over any entry list preserves every
record index and the counter. -/
lemma foldl_compensate_preserves_records :
    ∀ (l : List PendingLotteryRecord) (st : LotteryState),
    ((l.foldl compensatePendingFailure st).userRecords = st.userRecords ∧
     (l.foldl compensatePendingFailure st).recentRecords = st.recentRecords ∧
     (l.foldl compensatePendingFailure st).dayRecords = st.dayRecords ∧
     (l.foldl compensatePendingFailure st).totalRecords = st.totalRecords)
  | [], st => ⟨rfl, rfl, rfl, rfl⟩
  | p :: rest, st => by
    obtain ⟨h1, h2, h3, h4⟩ :=
      foldl_compensate_preserves_records rest (compensatePendingFailure st p)
    obtain ⟨g1, g2, g3, g4⟩ := compensatePendingFailure_preserves_records st p
    exact ⟨by rw [List.foldl_cons, h1, g1], by rw [List.foldl_cons, h2, g2],
      by rw [List.foldl_cons, h3, g3], by rw [List.foldl_cons, h4, g4]⟩

/-- C6 (amended): reconciliation never mutates any written reward record.
When the reconciler confirms a pending disbursement it only drops the entry
from the pending list; the stored record keeps its original fields, including
the pending marker in its label — no relabeling of a committed/pending
marking exists in the code. -/
theorem reconcile_never_mutates_written_records (s : LotteryState) (now : ℚ)
    (oracle : Nat → QuotaQueryOutcome) :
    (reconcilePendingRecords s now oracle).2.userRecords = s.userRecords ∧
    (reconcilePendingRecords s now oracle).2.recentRecords = s.recentRecords ∧
    (reconcilePendingRecords s now oracle).2.dayRecords = s.dayRecords ∧
    (reconcilePendingRecords s now oracle).2.totalRecords = s.totalRecords := by
  simp only [reconcilePendingRecords, lrange_all]
  by_cases hp : s.pendings.isEmpty
  · simp [hp]
  · simp only [hp, Bool.false_eq_true, if_false, reconcileLoop_eq_spec]
    exact foldl_compensate_preserves_records _ s

/-- The reward record written by the uncertain branch for the C6 scenario:
its label carries the pending marker. -/
def pendingSampleRecord : LotteryRecord :=
  { id := "lottery_pending_1"
    linuxdoId := "7"
    username := "alice"
    tierId := "tier_1"
    tierName := "[待确认] 1刀福利"
    tierValue := 1
    directCredit := true
    creditedQuota := none
    createdAt := 0 }

def pendingSampleEntry : PendingLotteryRecord :=
  { record := pendingSampleRecord
    newApiUserId := 42
    expectedQuota := 500000
    reservationDay := "2026-01-01"
    storedAt := 0 }

/-- A state holding one pending disbursement whose record sits in the user
index, as the uncertain branch of `spinLotteryDirect` leaves it. -/
def pendingSampleState : LotteryState :=
  { config := { enabled := true, dailyDirectLimit := 2000, tiers := DEFAULT_TIERS }
    claims := fun i d => decide (i = "7" ∧ d = "2026-01-01")
    budget := fun d => if d = "2026-01-01" then 100 else 0
    recentRecords := [pendingSampleRecord.toStored]
    dayRecords := fun d => if d = "2026-01-01" then [pendingSampleRecord.toStored] else []
    userRecords := fun k => if k = "7" then [pendingSampleRecord.toStored] else []
    totalRecords := 1
    pendings := [pendingSampleEntry] }

/-- Counterexample to C6 as stated: the reconciler confirms the pending
disbursement (observed balance equals the expected floor, `confirmed = 1`,
pending list emptied), yet the stored reward record is not relabeled — every
record index is untouched and the record still carries the pending marker in
its `tierName`. -/
theorem reconcile_confirm_does_not_relabel_counterexample :
    (reconcilePendingRecords pendingSampleState 1000
        (fun _ => QuotaQueryOutcome.observed 500000)).1.confirmed = 1 ∧
    (reconcilePendingRecords pendingSampleState 1000
        (fun _ => QuotaQueryOutcome.observed 500000)).2.pendings = [] ∧
    (reconcilePendingRecords pendingSampleState 1000
        (fun _ => QuotaQueryOutcome.observed 500000)).2.userRecords "7" =
      [pendingSampleRecord.toStored] ∧
    pendingSampleRecord.tierName = "[待确认] 1刀福利" := by
  refine ⟨?_, ?_, ?_, rfl⟩ <;>
    norm_num [reconcilePendingRecords, lrange_all, reconcileLoop, pendingSampleState,
      pendingSampleEntry, PENDING_RECORDS_MAX_AGE_MS]

/-- If no pending entry is classified failed (no observation below its stored
floor), a reconciler run leaves the budget accumulator unchanged. -/
lemma reconcile_budget_unchanged_of_no_failed (s : LotteryState) (now : ℚ)
    (oracle : Nat → QuotaQueryOutcome)
    (h : verdictEntries now oracle PendingVerdict.failedDrop 0 s.pendings = []) :
    (reconcilePendingRecords s now oracle).2.budget = s.budget := by
  simp only [reconcilePendingRecords, lrange_all]
  by_cases hp : s.pendings.isEmpty
  · simp [hp]
  · simp only [hp, Bool.false_eq_true, if_false, reconcileLoop_eq_spec, h, List.foldl_nil]

/-- C2: an attempt whose external credit call is classified Uncertain performs
no budget rollback and no daily-claim release: the reserved amount stays in
the day's accumulator, the claim token stays set, an unconfirmed reward
record (pending label, no credited quota) is appended, a pending entry
carrying the expected quota floor (`newQuota ?? 0`) and the reservation day is
stored, and the outcome is the pending (uncertain) result. Moreover the
reconciler — the only component that can later roll back — leaves the budget
unchanged unless some entry is classified failed, which requires an observed
balance below its stored floor. -/
theorem spin_uncertain_defers_to_reconciler (s : LotteryState) (linuxdoId : Int)
    (username : String) (newApiUserId : Int) (today : String) (r : ℚ)
    (credit : CreditResult) (idSuffix : String) (now : ℚ) (tier : LotteryTier)
    (hclaim : s.claims (toString linuxdoId) today = false)
    (hen : (getLotteryConfig s).enabled = true)
    (hsel : weightedRandomSelect (affordableTiersOf s today) r = some tier)
    (hres : 0 < jsRound (tier.value * DIRECT_AMOUNT_SCALE) ∧
      s.budget today + jsRound (tier.value * DIRECT_AMOUNT_SCALE) ≤
        jsRound ((getLotteryConfig s).dailyDirectLimit * DIRECT_AMOUNT_SCALE))
    (hunc : credit.uncertain = true) :
    (spinLotteryDirect s linuxdoId username newApiUserId today r credit idSuffix now).1 =
      ⟨false, none, msgUncertain, true⟩ ∧
    (spinLotteryDirect s linuxdoId username newApiUserId today r credit idSuffix now).2.budget =
      (fun d => if d = today then
        s.budget today + jsRound (tier.value * DIRECT_AMOUNT_SCALE) else s.budget d) ∧
    (spinLotteryDirect s linuxdoId username newApiUserId today r credit idSuffix
        now).2.claims (toString linuxdoId) today = true ∧
    (spinLotteryDirect s linuxdoId username newApiUserId today r credit idSuffix
        now).2.pendings =
      (({ record :=
            { id := "lottery_pending_" ++ idSuffix
              linuxdoId := toString linuxdoId
              username := username
              tierId := tier.id
              tierName := "[待确认] " ++ tier.name
              tierValue := tier.value
              directCredit := true
              creditedQuota := none
              createdAt := now }
          newApiUserId := newApiUserId
          expectedQuota := credit.newQuota.getD 0
          reservationDay := today
          storedAt := now } : PendingLotteryRecord) :: s.pendings).take 100 ∧
    (spinLotteryDirect s linuxdoId username newApiUserId today r credit idSuffix
        now).2.userRecords (toString linuxdoId) =
      ((LotteryRecord.toStored
          { id := "lottery_pending_" ++ idSuffix
            linuxdoId := toString linuxdoId
            username := username
            tierId := tier.id
            tierName := "[待确认] " ++ tier.name
            tierValue := tier.value
            directCredit := true
            creditedQuota := none
            createdAt := now }) ::
        s.userRecords (toString linuxdoId)).take USER_RECORDS_MAX_LENGTH ∧
    (∀ (now2 : ℚ) (oracle : Nat → QuotaQueryOutcome),
      verdictEntries now2 oracle PendingVerdict.failedDrop 0
        (spinLotteryDirect s linuxdoId username newApiUserId today r credit idSuffix
          now).2.pendings = [] →
      (reconcilePendingRecords
        (spinLotteryDirect s linuxdoId username newApiUserId today r credit idSuffix
          now).2 now2 oracle).2.budget =
      (spinLotteryDirect s linuxdoId username newApiUserId today r credit idSuffix
        now).2.budget) := by
  have hne : (affordableTiersOf s today).isEmpty = false := by
    cases h : affordableTiersOf s today with
    | nil => rw [h] at hsel; simp [weightedRandomSelect] at hsel
    | cons a l => rfl
  simp only [getLotteryConfig] at hres
  have h1 : (reserveDailyDirectQuota
      { s with claims := fun i d =>
          if i = toString linuxdoId ∧ d = today then true else s.claims i d }
      today tier.value today).1.1 = true := by
    simp only [reserveDailyDirectQuota, getLotteryConfig]
    rw [if_neg (by omega), if_neg (by omega)]
  have h2 : (reserveDailyDirectQuota
      { s with claims := fun i d =>
          if i = toString linuxdoId ∧ d = today then true else s.claims i d }
      today tier.value today).2 =
      { s with
        claims := fun i d =>
          if i = toString linuxdoId ∧ d = today then true else s.claims i d
        budget := fun d => if d = today then
          s.budget today + jsRound (tier.value * DIRECT_AMOUNT_SCALE) else s.budget d } := by
    simp only [reserveDailyDirectQuota, getLotteryConfig]
    rw [if_neg (by omega), if_neg (by omega)]
  simp only [getLotteryConfig] at hen
  simp only [spinLotteryDirect, tryClaimDailyFree, hclaim, Bool.false_eq_true, if_false,
    getLotteryConfig, affordableTiersOf_update_claims, hen, hne, Bool.true_eq_false,
    hsel, h1, h2, hunc, if_true, appendLotteryRecord, storePendingRecord]
  refine ⟨by simp, by simp, by simp, by simp, by simp, ?_⟩
  intro now2 oracle hfail
  exact reconcile_budget_unchanged_of_no_failed _ now2 oracle hfail

def sampleTierOne : LotteryTier :=
  { id := "tier_1", name := "1刀福利", value := 1, probability := 40, color := "#22c55e" }

/-- Witness for C2: a fresh user on the default configuration draws the first
tier, the credit call is Uncertain, and the attempt ends pending. -/
theorem spin_uncertain_defers_to_reconciler_witness :
    emptyLotteryState.claims (toString (7 : Int)) "2026-01-01" = false ∧
    (getLotteryConfig emptyLotteryState).enabled = true ∧
    weightedRandomSelect (affordableTiersOf emptyLotteryState "2026-01-01") 0 =
      some sampleTierOne ∧
    sampleUncertainCredit.uncertain = true ∧
    (spinLotteryDirect emptyLotteryState 7 "alice" 42 "2026-01-01" 0
        sampleUncertainCredit "x" 0).1 = ⟨false, none, msgUncertain, true⟩ := by
  have hsel : weightedRandomSelect (affordableTiersOf emptyLotteryState "2026-01-01") 0 =
      some sampleTierOne := by
    norm_num [weightedRandomSelect, affordableTiersOf, getLotteryConfig, getTodayDirectTotal,
      selectLoop, emptyLotteryState, sampleTierOne, DEFAULT_TIERS, DIRECT_AMOUNT_SCALE,
      List.filter]
  have hres : 0 < jsRound (sampleTierOne.value * DIRECT_AMOUNT_SCALE) ∧
      emptyLotteryState.budget "2026-01-01" +
          jsRound (sampleTierOne.value * DIRECT_AMOUNT_SCALE) ≤
        jsRound ((getLotteryConfig emptyLotteryState).dailyDirectLimit *
          DIRECT_AMOUNT_SCALE) := by
    constructor <;>
      norm_num [jsRound, sampleTierOne, DIRECT_AMOUNT_SCALE, getLotteryConfig,
        emptyLotteryState]
  exact ⟨rfl, rfl, hsel, rfl,
    (spin_uncertain_defers_to_reconciler emptyLotteryState 7 "alice" 42 "2026-01-01" 0
      sampleUncertainCredit "x" 0 sampleTierOne rfl rfl hsel hres rfl).1⟩

/-- `LRANGE key 0 0` is the one-element prefix. -/
lemma lrange_zero_zero {α : Type} (l : List α) : lrange l 0 0 = l.take 1 := by
  rcases l with _ | ⟨x, xs⟩
  · rfl
  · simp only [lrange, List.length_cons]
    split_ifs with h1 h2 h3 h4 h5 <;> try omega
    all_goals
      rw [show (0 : Int).toNat = 0 from rfl, List.drop_zero]
      norm_num

/-- A record is well-formed when every field the read-time normalization
inspects survives it unchanged: trimmed non-empty id and user id, non-empty
tier name, and a tier id with non-blank trim. -/
def wellFormedRecord (r : LotteryRecord) : Prop :=
  jsTrim r.id = r.id ∧ r.id ≠ "" ∧ jsTrim r.linuxdoId = r.linuxdoId ∧ r.linuxdoId ≠ "" ∧
  r.tierName ≠ "" ∧ jsTrim r.tierId ≠ ""

/-- Read-time normalization is the identity on well-formed stored records. -/
lemma normalize_toStored_of_wellFormed (r : LotteryRecord) (h : wellFormedRecord r) :
    normalizeLotteryRecord r.toStored = some r := by
  obtain ⟨hid, hid0, hlid, hlid0, htn, hti⟩ := h
  simp only [normalizeLotteryRecord, LotteryRecord.toStored, hid, hlid]
  rw [if_neg (by simp [hid0, hlid0, htn]), if_pos hti]

/-- C7: `appendLotteryRecord(record, userId)` followed by
`getUserLotteryRecords(userId, 1)` returns exactly the just-appended record,
with all fields intact after read-time normalization. -/
theorem append_then_read_roundtrip (s : LotteryState) (r : LotteryRecord)
    (linuxdoId : Int) (today : String) (h : wellFormedRecord r) :
    getUserLotteryRecords (appendLotteryRecord s r linuxdoId today) linuxdoId 1 = [r] := by
  simp only [getUserLotteryRecords, appendLotteryRecord]
  rw [show (1 : Int) - 1 = 0 from rfl]
  rw [lrange_zero_zero]
  simp only [if_true]
  rw [List.take_take]
  norm_num [USER_RECORDS_MAX_LENGTH]
  simp [List.take_succ_cons, normalizeLotteryRecords, normalize_toStored_of_wellFormed r h]

/-- A concrete well-formed record for the C7 witness. -/
def roundtripSampleRecord : LotteryRecord :=
  { id := "lottery_1700000000000_ab12cd"
    linuxdoId := "7"
    username := "alice"
    tierId := "tier_3"
    tierName := "3刀福利"
    tierValue := 3
    directCredit := true
    creditedQuota := some 1500000
    createdAt := 1700000000000 }

/-- Witness for C7 at a concrete record and state. -/
theorem append_then_read_roundtrip_witness :
    wellFormedRecord roundtripSampleRecord ∧
    getUserLotteryRecords (appendLotteryRecord emptyLotteryState roundtripSampleRecord 7
        "2026-01-01") 7 1 = [roundtripSampleRecord] :=
  ⟨by refine ⟨by decide, by decide, by decide, by decide, by decide, by decide⟩,
    append_then_read_roundtrip emptyLotteryState roundtripSampleRecord 7 "2026-01-01"
      ⟨by decide, by decide, by decide, by decide, by decide, by decide⟩⟩

/-- `type UserQuotaLock = {key, token}` from `new-api.ts`. -/
structure UserQuotaLock where
  key : String
  token : String
deriving DecidableEq, Repr

/-- The compare-and-delete Lua script shared by `releaseUserQuotaLock` and the
`finally` block of `updateLotteryConfig`: `GET key`; delete only when the
stored value still equals the expected token, otherwise leave the store
untouched. One atomic transition on the string store. -/
def compareAndDeleteScript (store : String → Option String) (key tok : String) :
    String → Option String :=
  match store key with
  | some current => if current = tok then (fun k => if k = key then none else store k) else store
  | none => store

/-- `releaseUserQuotaLock(lock)` from `new-api.ts`. -/
def releaseUserQuotaLock (store : String → Option String) (lock : UserQuotaLock) :
    String → Option String :=
  compareAndDeleteScript store lock.key lock.token

/-- The lock release in `updateLotteryConfig`: the identical script at the
fixed config lock key `lottery:config:lock`. -/
def updateLotteryConfigReleaseLock (store : String → Option String) (lockToken : String) :
    String → Option String :=
  compareAndDeleteScript store "lottery:config:lock" lockToken

/-- C8: lock release deletes the lock key only when the stored value still
equals the releasing holder's token (atomic compare-and-delete), never
unconditionally; a lock re-acquired by a later holder (a different token) is
left untouched by the earlier holder's release, at both release sites. -/
theorem lock_release_is_compare_and_delete (store : String → Option String)
    (lock : UserQuotaLock) :
    (store lock.key = some lock.token →
      releaseUserQuotaLock store lock lock.key = none ∧
      ∀ k, k ≠ lock.key → releaseUserQuotaLock store lock k = store k) ∧
    (store lock.key ≠ some lock.token → releaseUserQuotaLock store lock = store) ∧
    (∀ laterToken, laterToken ≠ lock.token → store lock.key = some laterToken →
      releaseUserQuotaLock store lock = store) ∧
    (∀ laterToken lockToken, laterToken ≠ lockToken →
      store "lottery:config:lock" = some laterToken →
      updateLotteryConfigReleaseLock store lockToken = store) := by
  refine ⟨?_, ?_, ?_, ?_⟩
  · intro hstored
    simp only [releaseUserQuotaLock, compareAndDeleteScript, hstored, if_pos rfl]
    exact ⟨by simp, fun k hk => by simp [hk]⟩
  · intro hne
    cases hcur : store lock.key with
    | none => simp only [releaseUserQuotaLock, compareAndDeleteScript, hcur]
    | some current =>
      simp only [releaseUserQuotaLock, compareAndDeleteScript, hcur]
      rw [if_neg]
      intro heq
      exact hne (by rw [hcur, heq])
  · intro laterToken hne hstored
    simp only [releaseUserQuotaLock, compareAndDeleteScript, hstored]
    exact if_neg hne
  · intro laterToken lockToken hne hstored
    simp only [updateLotteryConfigReleaseLock, compareAndDeleteScript, hstored]
    exact if_neg hne

/-- A store holding a later holder's token under the user-5 lock key. -/
def reacquiredLockStore : String → Option String :=
  fun k => if k = "newapi:quota:credit:lock:5" then some "t2" else none

/-- Witness for C8: the earlier holder (token t1) cannot release the lock now
held by token t2. -/
theorem lock_release_is_compare_and_delete_witness :
    reacquiredLockStore "newapi:quota:credit:lock:5" = some "t2" ∧ "t2" ≠ "t1" ∧
    releaseUserQuotaLock reacquiredLockStore ⟨"newapi:quota:credit:lock:5", "t1"⟩ =
      reacquiredLockStore :=
  ⟨by decide, by decide,
    (lock_release_is_compare_and_delete reacquiredLockStore
      ⟨"newapi:quota:credit:lock:5", "t1"⟩).2.2.1 "t2" (by decide) (by decide)⟩

def USER_QUOTA_LOCK_TTL_SECONDS : Nat := 15

def USER_QUOTA_LOCK_RETRY_MS : Nat := 120

def USER_QUOTA_LOCK_MAX_RETRIES : Nat := 25

/-- The bounded `for` loop of `acquireUserQuotaLock`: `avail i` says whether
the i-th `SET key NX` succeeds (the concurrent environment is the oracle).
Returns the successful attempt index (if any) and the number of set attempts
made; the fixed 120 ms sleep between attempts has no state effect. -/
def acquireLoop (avail : Nat → Bool) : Nat → Nat → Option Nat × Nat
  | _, 0 => (none, 0)
  | start, fuel + 1 =>
    if avail start then (some start, 1)
    else
      let next := acquireLoop avail (start + 1) fuel
      (next.1, next.2 + 1)

/-- `acquireUserQuotaLock(userId)`: at most `USER_QUOTA_LOCK_MAX_RETRIES`
set-if-absent attempts, then give up with `null`. `token` stands for the
generated `${Date.now()}_${random}` value. -/
def acquireUserQuotaLock (avail : Nat → Bool) (userId : Int) (token : String) :
    Option UserQuotaLock × Nat :=
  let key := "newapi:quota:credit:lock:" ++ toString userId
  let out := acquireLoop avail 0 USER_QUOTA_LOCK_MAX_RETRIES
  (match out.1 with
   | some _ => some { key := key, token := token }
   | none => none, out.2)

def msgCreditBusy : String := "系统繁忙，充值请求排队中，请稍后重试"

/-- `creditQuotaToUser(userId, dollars)`, head of the function: acquire the
per-user lock; on failure return the busy error without any call to the
external service (the external-call count is 0). `lockedBody` abstracts the
locked section (admin session, user fetch, update, verification, release —
`new-api.ts` lines 474-557) together with the number of external HTTP calls
it makes; it is unreachable when acquisition fails, which is all this claim
is about. -/
def creditQuotaToUser (avail : Nat → Bool) (userId : Int) (token : String)
    (lockedBody : UserQuotaLock → CreditResult × Nat) : CreditResult × Nat :=
  match acquireUserQuotaLock avail userId token with
  | (none, _) =>
    ({ success := false, message := msgCreditBusy, newQuota := none, uncertain := false }, 0)
  | (some lock, _) => lockedBody lock

/-- The loop makes at most `fuel` set attempts. -/
lemma acquireLoop_attempts_le (avail : Nat → Bool) :
    ∀ (fuel start : Nat), (acquireLoop avail start fuel).2 ≤ fuel
  | 0, _ => le_refl 0
  | fuel + 1, start => by
    simp only [acquireLoop]
    split_ifs
    · omega
    · have := acquireLoop_attempts_le avail fuel (start + 1)
      simp only []
      omega

/-- If no attempt in the window succeeds, the loop reports no success. -/
lemma acquireLoop_none_of_all_fail (avail : Nat → Bool) :
    ∀ (fuel start : Nat), (∀ i, start ≤ i → i < start + fuel → avail i = false) →
      (acquireLoop avail start fuel).1 = none
  | 0, _, _ => rfl
  | fuel + 1, start, h => by
    simp only [acquireLoop]
    rw [if_neg (by simp [h start (le_refl start) (by omega)])]
    exact acquireLoop_none_of_all_fail avail fuel (start + 1)
      (fun i h1 h2 => h i (by omega) (by omega))

/-- C9: lock acquisition attempts the set-if-absent at most a fixed bounded
number of times — 25 attempts with a fixed 120 ms delay — then gives up with
`null`, upon which `creditQuotaToUser` returns the busy error having made no
call to the external service; acquisition never retries unboundedly. -/
theorem acquire_lock_bounded_then_busy (avail : Nat → Bool) (userId : Int)
    (token : String) (lockedBody : UserQuotaLock → CreditResult × Nat) :
    (acquireUserQuotaLock avail userId token).2 ≤ USER_QUOTA_LOCK_MAX_RETRIES ∧
    USER_QUOTA_LOCK_MAX_RETRIES = 25 ∧ USER_QUOTA_LOCK_RETRY_MS = 120 ∧
    ((∀ i, i < USER_QUOTA_LOCK_MAX_RETRIES → avail i = false) →
      (acquireUserQuotaLock avail userId token).1 = none ∧
      creditQuotaToUser avail userId token lockedBody =
        ({ success := false, message := msgCreditBusy, newQuota := none,
           uncertain := false }, 0)) := by
  have hle : (acquireUserQuotaLock avail userId token).2 ≤ USER_QUOTA_LOCK_MAX_RETRIES := by
    simp only [acquireUserQuotaLock]
    cases hout : (acquireLoop avail 0 USER_QUOTA_LOCK_MAX_RETRIES).1 <;>
      simpa [hout] using acquireLoop_attempts_le avail USER_QUOTA_LOCK_MAX_RETRIES 0
  refine ⟨hle, rfl, rfl, fun hall => ?_⟩
  have hnone : (acquireLoop avail 0 USER_QUOTA_LOCK_MAX_RETRIES).1 = none :=
    acquireLoop_none_of_all_fail avail USER_QUOTA_LOCK_MAX_RETRIES 0
      (fun i _ h2 => hall i (by omega))
  constructor
  · simp [acquireUserQuotaLock, hnone]
  · simp [creditQuotaToUser, acquireUserQuotaLock, hnone]

/-- Witness for C9: with every set attempt failing, the call is busy with
zero external calls. -/
theorem acquire_lock_bounded_then_busy_witness :
    (∀ i, i < USER_QUOTA_LOCK_MAX_RETRIES → (fun _ => false) i = false) ∧
    creditQuotaToUser (fun _ => false) 5 "tok" (fun _ => (sampleSuccessCredit, 3)) =
      ({ success := false, message := msgCreditBusy, newQuota := none,
         uncertain := false }, 0) :=
  ⟨fun _ _ => rfl,
    ((acquire_lock_bounded_then_busy (fun _ => false) 5 "tok"
      (fun _ => (sampleSuccessCredit, 3))).2.2.2 (fun _ _ => rfl)).2⟩

/-- Witness for C1: a granted $5 reservation on an empty day stays within the
default $2000 cap. -/
theorem reserveDailyDirectQuota_cap_invariant_witness :
    (reserveDailyDirectQuota emptyLotteryState "2026-01-01" 5 "2026-01-01").1.1 = true ∧
    (reserveDailyDirectQuota emptyLotteryState "2026-01-01" 5
        "2026-01-01").2.budget "2026-01-01" ≤
      jsRound ((getLotteryConfig emptyLotteryState).dailyDirectLimit * DIRECT_AMOUNT_SCALE) := by
  have hsucc : (reserveDailyDirectQuota emptyLotteryState "2026-01-01" 5 "2026-01-01").1.1 =
      true := by
    simp only [reserveDailyDirectQuota, getLotteryConfig]
    rw [if_neg (by norm_num [jsRound, DIRECT_AMOUNT_SCALE]),
      if_neg (by norm_num [jsRound, DIRECT_AMOUNT_SCALE, emptyLotteryState])]
  exact ⟨hsucc, ((reserveDailyDirectQuota_cap_invariant emptyLotteryState "2026-01-01"
    "2026-01-01" 5).1 hsucc).2.1⟩
